import Mathlib

/-!
Verification of the connection-configuration / transaction-submission module
(src/contexts/solana-connection-config.tsx).

The module is shallowly embedded: strings are lists of characters, the
JavaScript regular-expression scan of getErrorForTransaction is modelled at
the level of match positions and captures, the effectful sendTransaction
workflow is modelled as a pure function of its collaborators (connection,
wallet) that also returns the trace of collaborator calls it performed, and
the React provider component is modelled as a state machine over the
handles and subscriptions it maintains.
-/

/-! ## Error extraction: getErrorForTransaction

The source scans every log message with the JavaScript regular expression
Error colon space capture-all, global and multiline flags, in a while loop
over regex.exec, pushing the first capture group of every match.
-/

/-- Line terminators of the ECMAScript dot character class: the dot in the
regular expression matches every character except these. -/
def isLineTerm (c : Char) : Bool :=
  c == '\n' || c == '\r' || c == '\u2028' || c == '\u2029'

/-- Characters the regular-expression dot accepts. -/
def notTerm (c : Char) : Bool := !isLineTerm c

/-- The literal part of the pattern, the seven characters of Error colon
space. -/
def errList : List Char := "Error: ".toList

/-- The regular expression matches at the head of a suffix exactly when the
suffix starts with the literal pattern (the trailing capture-all group
always matches). -/
def errHeadAt (s : List Char) : Bool := errList.isPrefixOf s

/-- Index of the first match position in a string, scanning left to right,
as regex.exec does from lastIndex zero. -/
def firstOccIdx : List Char → Option Nat
  | [] => none
  | c :: cs => if errHeadAt (c :: cs) then some 0 else (firstOccIdx cs).map (· + 1)

/-- Result of one regex.exec call: m.index, the length of the whole match
m zero, and the first capture group m one. -/
structure RegexMatch where
  index : Nat
  matchLen : Nat
  capture : List Char
  deriving DecidableEq, Repr

/-- One call of regex.exec on string s with the given lastIndex: the first
match at or after lastIndex; the capture group is the greedy capture-all,
running to the next line terminator or the end of the string. -/
def regexExec (s : List Char) (lastIndex : Nat) : Option RegexMatch :=
  match firstOccIdx (s.drop lastIndex) with
  | none => none
  | some k =>
    let cap := ((s.drop lastIndex).drop (k + 7)).takeWhile notTerm
    some ⟨lastIndex + k, 7 + cap.length, cap⟩

/-- The while loop of getErrorForTransaction, fuel-indexed: each iteration
calls regex.exec, applies the zero-width-match guard (advance lastIndex by
one when the match was empty), and pushes the capture. Returns none when
the fuel runs out before the loop exits; the termination theorem shows
fuel length-plus-two always suffices. -/
def execLoopF : Nat → List Char → Nat → List (List Char) → Option (List (List Char))
  | 0, _, _, _ => none
  | fuel + 1, s, li, acc =>
    match regexExec s li with
    | none => some acc.reverse
    | some m =>
      let li1 := m.index + m.matchLen
      let li2 := if m.index = li1 then li1 + 1 else li1
      execLoopF fuel s li2 (m.capture :: acc)

/-- The full scan of one log message (the loop run to completion). -/
def execRun (s : List Char) : List (List Char) :=
  (execLoopF (s.length + 2) s 0 []).getD []

/-- The forEach over log messages, pushing every capture into one shared
errors array. -/
def extractErrors (logs : List (List Char)) : List (List Char) :=
  logs.foldl (fun errors log => errors ++ execRun log) []

/-- The meta field of a parsed confirmed transaction, with its possibly
null logMessages. -/
structure TxMeta where
  logMessages : Option (List (List Char))
  deriving DecidableEq, Repr

/-- A parsed confirmed transaction as queried by getErrorForTransaction;
the query itself may return null. -/
structure ParsedTx where
  meta : Option TxMeta
  deriving DecidableEq, Repr

/-- getErrorForTransaction as a function of the queried transaction record:
when the record, its meta, or its logMessages is missing the guard skips
the scan and the empty errors array is returned. -/
def getErrorForTransaction : Option ParsedTx → List (List Char)
  | some ⟨some ⟨some logs⟩⟩ => extractErrors logs
  | _ => []

/-! ## Characterisation layer for the extraction

The following definitions restate the scan at the level of match
positions, captures and line segments; the theorems below relate the
executable loop to them.
-/

/-- Every position of the string (in order) at which the pattern matches. -/
def occPositions (t : List Char) : List Nat :=
  (List.range t.length).filter (fun p => errHeadAt (t.drop p))

/-- The capture the regular expression would produce at a given match
position: the text after the literal pattern up to the next line
terminator. -/
def captureAt (t : List Char) (p : Nat) : List Char :=
  (t.drop (p + 7)).takeWhile notTerm

/-- The captures of all match positions of the string, in order. -/
def allOccCaptures (t : List Char) : List (List Char) :=
  (occPositions t).map (captureAt t)

/-- A first match position carries an actual match: the pattern literal
is a prefix of the suffix at that position. -/
theorem firstOccIdx_isPrefixOf {t : List Char} {k : Nat}
    (h : firstOccIdx t = some k) : errList.isPrefixOf (t.drop k) = true := by
  induction t generalizing k with
  | nil => simp [firstOccIdx] at h
  | cons c cs ih =>
    by_cases hc : errHeadAt (c :: cs) = true
    · simp [firstOccIdx, hc] at h
      subst h
      simpa [errHeadAt] using hc
    · simp [firstOccIdx, hc] at h
      obtain ⟨k2, hk2, rfl⟩ := h
      simpa using ih hk2

/-- A match needs the seven pattern characters, so a first match position
leaves at least seven characters of the string. -/
theorem firstOccIdx_le {t : List Char} {k : Nat}
    (h : firstOccIdx t = some k) : k + 7 ≤ t.length := by
  have := ( List.isPrefixOf_iff_prefix.mp (firstOccIdx_isPrefixOf h)).length_le
  simp [List.length_drop, errList] at this
  omega

/-- Position-free form of the repeated scan: find the first match, emit
its capture, resume right after the capture. -/
def specScan (t : List Char) : List (List Char) :=
  match h : firstOccIdx t with
  | none => []
  | some k =>
    ((t.drop (k + 7)).takeWhile notTerm) ::
      specScan ((t.drop (k + 7)).drop ((t.drop (k + 7)).takeWhile notTerm).length)
termination_by t.length
decreasing_by
  have h7 : k + 7 ≤ t.length := firstOccIdx_le h
  simp [List.length_drop]
  omega

/-- Unfolding of the position-free scan when there is no match. -/
theorem specScan_of_none {t : List Char} (h : firstOccIdx t = none) :
    specScan t = [] := by
  rw [specScan.eq_def]
  split
  · rfl
  · rename_i k hk
    rw [h] at hk
    cases hk

/-- Unfolding of the position-free scan at its first match. -/
theorem specScan_of_some {t : List Char} {k : Nat} (h : firstOccIdx t = some k) :
    specScan t = ((t.drop (k + 7)).takeWhile notTerm) ::
      specScan ((t.drop (k + 7)).drop ((t.drop (k + 7)).takeWhile notTerm).length) := by
  rw [specScan.eq_def]
  split
  · rename_i hk
    rw [h] at hk
    cases hk
  · rename_i k2 hk
    rw [h] at hk
    cases hk
    rfl

/-- With fuel exceeding the remaining length, the executable while loop
finishes and produces exactly the position-free scan of the unread
suffix, appended to the captures accumulated so far. -/
theorem execLoopF_eq (fuel : Nat) : ∀ (s : List Char) (li : Nat) (acc : List (List Char)),
    s.length + 1 - li < fuel →
    execLoopF fuel s li acc = some (acc.reverse ++ specScan (s.drop li)) := by
  induction fuel with
  | zero => intro s li acc h; omega
  | succ n ih =>
    intro s li acc h
    cases hf : firstOccIdx (s.drop li) with
    | none =>
      simp [execLoopF, regexExec, hf, specScan_of_none hf]
    | some k =>
      have h7 : k + 7 ≤ (s.drop li).length := firstOccIdx_le hf
      simp only [List.length_drop] at h7
      have hguard : ¬ (li + k = li + k + (7 + (((s.drop li).drop (k + 7)).takeWhile notTerm).length)) := by
        omega
      have hdd : ((s.drop li).drop (k + 7)).drop (((s.drop li).drop (k + 7)).takeWhile notTerm).length
          = s.drop (li + k + (7 + (((s.drop li).drop (k + 7)).takeWhile notTerm).length)) := by
        simp only [List.drop_drop]
        congr 1
        omega
      have hrec := ih s (li + k + (7 + (((s.drop li).drop (k + 7)).takeWhile notTerm).length))
        ((((s.drop li).drop (k + 7)).takeWhile notTerm) :: acc) (by omega)
      simp only [execLoopF, regexExec, hf, if_neg hguard, hrec, hdd]
      rw [specScan_of_some hf]
      simp [hdd]
      congr 2
      omega

/-- The full scan equals the position-free scan. -/
theorem execRun_eq_specScan (s : List Char) : execRun s = specScan s := by
  have h := execLoopF_eq (s.length + 2) s 0 [] (by omega)
  simp [execRun, h]

/-- C5: for every log string (and from every loop state, so in particular
for inputs on which the pattern matches with an empty capture), the
repeated regex-scanning while loop of getErrorForTransaction terminates:
fuel bounded by the string length plus two is never exhausted. -/
theorem execLoop_fuel_terminates (s : List Char) (li : Nat) (acc : List (List Char)) :
    (execLoopF (s.length + 2) s li acc).isSome = true := by
  rw [execLoopF_eq (s.length + 2) s li acc (by omega)]
  rfl

/-- The line segments of a string: the maximal runs of non-terminator
characters, in order (adjacent terminators yield empty segments, exactly
as the dot-anchored captures see them). -/
def segsOf (t : List Char) : List (List Char) :=
  match h : t.dropWhile notTerm with
  | [] => [t.takeWhile notTerm]
  | _ :: rest => (t.takeWhile notTerm) :: segsOf rest
termination_by t.length
decreasing_by
  have hle : (t.dropWhile notTerm).length ≤ t.length := (List.dropWhile_sublist notTerm).length_le
  rw [h] at hle
  simp at hle
  omega

/-- The single entry a segment contributes: the text after the first
match of the segment, if the segment matches at all. -/
def segFirstError (seg : List Char) : Option (List Char) :=
  (firstOccIdx seg).map (fun k => seg.drop (k + 7))

/-- The per-segment reading of the scan: one entry per matching segment. -/
def segErrors (t : List Char) : List (List Char) :=
  (segsOf t).filterMap segFirstError

/-- Unfolding of segsOf when the string has no terminator. -/
theorem segsOf_of_nil {t : List Char} (h : t.dropWhile notTerm = []) :
    segsOf t = [t.takeWhile notTerm] := by
  rw [segsOf.eq_def]
  split
  · rfl
  · rename_i c rest hk
    rw [h] at hk
    cases hk

/-- Unfolding of segsOf at the first terminator. -/
theorem segsOf_of_cons {t : List Char} {c : Char} {rest : List Char}
    (h : t.dropWhile notTerm = c :: rest) :
    segsOf t = (t.takeWhile notTerm) :: segsOf rest := by
  rw [segsOf.eq_def]
  split
  · rename_i hk
    rw [h] at hk
    cases hk
  · rename_i c2 rest2 hk
    rw [h] at hk
    cases hk
    rfl

/-- Matching at the head is the same as the first seven characters being
the pattern literal. -/
theorem errHeadAt_iff_take {z : List Char} :
    errHeadAt z = true ↔ z.take 7 = errList := by
  unfold errHeadAt
  rw [ List.isPrefixOf_iff_prefix, List.prefix_iff_eq_take]
  constructor
  · intro h
    exact h.symm
  · intro h
    exact h.symm

/-- No character of the pattern literal is a line terminator. -/
theorem errList_no_term : ∀ c ∈ errList, isLineTerm c = false := by decide

/-- Extending a string on the right preserves a match at the head. -/
theorem errHeadAt_append {x d : List Char} (h : errHeadAt x = true) :
    errHeadAt (x ++ d) = true := by
  unfold errHeadAt at h ⊢
  rw [ List.isPrefixOf_iff_prefix] at h ⊢
  obtain ⟨u, rfl⟩ := h
  exact ⟨u ++ d, by rw [List.append_assoc]⟩

/-- A string with no match at its head still has no match at its head
after a terminator-headed (or empty) extension: the pattern literal
contains no terminator, so a match cannot straddle the boundary. -/
theorem errHeadAt_append_of_term {x d : List Char} (hx : errHeadAt x = false)
    (hd : d = [] ∨ ∃ c d2, d = c :: d2 ∧ isLineTerm c = true) :
    errHeadAt (x ++ d) = false := by
  rcases hd with rfl | ⟨c, d2, rfl, hc⟩
  · simpa using hx
  · by_contra hcon
    rw [Bool.not_eq_false, errHeadAt_iff_take] at hcon
    by_cases hlen : 7 ≤ x.length
    · rw [List.take_append_eq_append_take] at hcon
      have h0 : 7 - x.length = 0 := by omega
      rw [h0] at hcon
      simp at hcon
      have : errHeadAt x = true := errHeadAt_iff_take.mpr hcon
      rw [this] at hx
      cases hx
    · rw [List.take_append_eq_append_take] at hcon
      have hx7 : x.take 7 = x := List.take_of_length_le (by omega)
      have h1 : 7 - x.length = (7 - x.length - 1) + 1 := by omega
      rw [hx7, h1, List.take_succ_cons] at hcon
      have hcmem : c ∈ errList := by
        rw [← hcon]
        simp
      have := errList_no_term c hcmem
      rw [this] at hc
      cases hc

/-- Scanning skips a non-matching head character. -/
theorem specScan_cons {c : Char} {w : List Char} (h : errHeadAt (c :: w) = false) :
    specScan (c :: w) = specScan w := by
  cases hw : firstOccIdx w with
  | none =>
    have hcw : firstOccIdx (c :: w) = none := by
      simp [firstOccIdx, h, hw]
    rw [specScan_of_none hcw, specScan_of_none hw]
  | some k =>
    have hcw : firstOccIdx (c :: w) = some (k + 1) := by
      simp [firstOccIdx, h, hw]
    rw [specScan_of_some hcw, specScan_of_some hw]
    have hdc : (c :: w).drop (k + 1 + 7) = w.drop (k + 7) := by
      have h8 : k + 1 + 7 = (k + 7) + 1 := by omega
      rw [h8, List.drop_succ_cons]
    rw [hdc]

/-- Scanning skips a match-free block before a terminator-headed (or
empty) remainder. -/
theorem specScan_append_of_none {x d : List Char} (hx : firstOccIdx x = none)
    (hd : d = [] ∨ ∃ c d2, d = c :: d2 ∧ isLineTerm c = true) :
    specScan (x ++ d) = specScan d := by
  induction x with
  | nil => simp
  | cons c x2 ih =>
    have hE : errHeadAt (c :: x2) = false := by
      cases hEc : errHeadAt (c :: x2) with
      | false => rfl
      | true => simp [firstOccIdx, hEc] at hx
    have hx2 : firstOccIdx x2 = none := by
      simp [firstOccIdx, hE] at hx
      exact hx
    have hcd : errHeadAt (c :: (x2 ++ d)) = false := by
      have := errHeadAt_append_of_term (x := c :: x2) hE hd
      simpa using this
    rw [List.cons_append, specScan_cons hcd]
    exact ih hx2

/-- The first match of a match-bearing block before a terminator-headed
(or empty) remainder is the first match of the whole string. -/
theorem firstOccIdx_append_of_some {x d : List Char} {k : Nat}
    (h : firstOccIdx x = some k)
    (hd : d = [] ∨ ∃ c d2, d = c :: d2 ∧ isLineTerm c = true) :
    firstOccIdx (x ++ d) = some k := by
  induction x generalizing k with
  | nil => simp [firstOccIdx] at h
  | cons c x2 ih =>
    by_cases hE : errHeadAt (c :: x2) = true
    · simp [firstOccIdx, hE] at h
      subst h
      have hcd : errHeadAt (c :: (x2 ++ d)) = true := by
        have := errHeadAt_append (d := d) hE
        simpa using this
      simp [firstOccIdx, hcd]
    · have hEf : errHeadAt (c :: x2) = false := by
        cases hEc : errHeadAt (c :: x2) with
        | false => rfl
        | true => exact absurd hEc hE
      simp [firstOccIdx, hEf] at h
      obtain ⟨k2, hk2, rfl⟩ := h
      have hcd : errHeadAt (c :: (x2 ++ d)) = false := by
        have := errHeadAt_append_of_term (x := c :: x2) hEf hd
        simpa using this
      simp [firstOccIdx, hcd, ih hk2]

/-- The head of the remainder after dropWhile fails the predicate: here,
it is a line terminator. -/
theorem dropWhile_head_term {t : List Char} {c : Char} {rest : List Char}
    (h : t.dropWhile notTerm = c :: rest) : isLineTerm c = true := by
  induction t with
  | nil => simp at h
  | cons a t2 ih =>
    by_cases ha : notTerm a = true
    · rw [List.dropWhile_cons, if_pos ha] at h
      exact ih h
    · have haf : notTerm a = false := by
        cases hh : notTerm a with
        | false => rfl
        | true => exact absurd hh ha
      rw [List.dropWhile_cons, if_neg (by simp [haf])] at h
      cases h
      unfold notTerm at haf
      simpa using haf

/-- takeWhile of an all-good block followed by a failing head stops
exactly at the block. -/
theorem takeWhile_append_stop {p : Char → Bool} {x b : List Char} {c : Char}
    (hx : ∀ a ∈ x, p a = true) (hc : p c = false) :
    (x ++ c :: b).takeWhile p = x := by
  induction x with
  | nil => simp [List.takeWhile_cons, hc]
  | cons a x2 ih =>
    have ha : p a = true := hx a (by simp)
    rw [List.cons_append, List.takeWhile_cons, if_pos ha]
    rw [ih (fun a2 h2 => hx a2 (by simp [h2]))]

/-- The scan emits exactly one entry per matching line segment: the whole
remainder of the segment after the first match of that segment. -/
theorem specScan_eq_segErrors_aux :
    ∀ (n : Nat) (t : List Char), t.length ≤ n → specScan t = segErrors t := by
  intro n
  induction n with
  | zero =>
    intro t ht
    have hnil : t = [] := List.length_eq_zero.mp (by omega)
    subst hnil
    rw [specScan_of_none (by simp [firstOccIdx])]
    rw [segErrors, segsOf_of_nil (by simp)]
    simp [segFirstError, firstOccIdx]
  | succ n ih =>
    intro t ht
    cases hd : t.dropWhile notTerm with
    | nil =>
      have hts : t.takeWhile notTerm = t := by
        have hx := List.takeWhile_append_dropWhile (p := notTerm) (l := t)
        rw [hd] at hx
        simpa using hx
      have hall : ∀ a ∈ t, notTerm a = true := by
        intro a ha
        rw [← hts] at ha
        exact List.mem_takeWhile_imp ha
      rw [segErrors, segsOf_of_nil hd, hts]
      cases hocc : firstOccIdx t with
      | none =>
        rw [specScan_of_none hocc]
        simp [segFirstError, hocc]
      | some k =>
        rw [specScan_of_some hocc]
        have hcap : (t.drop (k + 7)).takeWhile notTerm = t.drop (k + 7) := by
          apply List.takeWhile_eq_self_iff.mpr
          intro a ha
          exact hall a (List.mem_of_mem_drop ha)
        rw [hcap, List.drop_length]
        rw [specScan_of_none (by simp [firstOccIdx])]
        simp [segFirstError, hocc]
    | cons c rest =>
      have hsplit : t.takeWhile notTerm ++ c :: rest = t := by
        have hx := List.takeWhile_append_dropWhile (p := notTerm) (l := t)
        rw [hd] at hx
        exact hx
      have hterm : isLineTerm c = true := dropWhile_head_term hd
      have hsegall : ∀ a ∈ t.takeWhile notTerm, notTerm a = true :=
        fun a ha => List.mem_takeWhile_imp ha
      have hlen : rest.length ≤ n := by
        have h1 := congrArg List.length hsplit
        simp at h1
        omega
      have hdisj : (c :: rest) = [] ∨ ∃ c2 d2, (c :: rest) = c2 :: d2 ∧ isLineTerm c2 = true :=
        Or.inr ⟨c, rest, rfl, hterm⟩
      have hcE : errHeadAt (c :: rest) = false := by
        cases hE2 : errHeadAt (c :: rest) with
        | false => rfl
        | true =>
          rw [errHeadAt_iff_take] at hE2
          have htk : (c :: rest).take 7 = c :: rest.take 6 := rfl
          rw [htk] at hE2
          have hcc : c = 'E' := by
            have h2 : c :: rest.take 6 = 'E' :: "rror: ".toList := by
              rw [hE2]
              rfl
            injection h2 with hc1 hc2
          subst hcc
          exact absurd hterm (by decide)
      rw [segErrors, segsOf_of_cons hd]
      cases hseg : firstOccIdx (t.takeWhile notTerm) with
      | none =>
        have hscan : specScan t = specScan rest := by
          conv_lhs => rw [← hsplit]
          rw [specScan_append_of_none hseg hdisj, specScan_cons hcE]
        rw [hscan, ih rest hlen]
        simp [List.filterMap_cons, segFirstError, hseg, segErrors]
      | some k =>
        have h7 : k + 7 ≤ (t.takeWhile notTerm).length := firstOccIdx_le hseg
        have hocc : firstOccIdx t = some k := by
          conv_lhs => rw [← hsplit]
          exact firstOccIdx_append_of_some hseg hdisj
        rw [specScan_of_some hocc]
        have hdropt : t.drop (k + 7) = (t.takeWhile notTerm).drop (k + 7) ++ c :: rest := by
          conv_lhs => rw [← hsplit]
          rw [List.drop_append_eq_append_drop]
          have h0 : k + 7 - (t.takeWhile notTerm).length = 0 := by omega
          rw [h0]
          simp
        have hcapall : ∀ a ∈ (t.takeWhile notTerm).drop (k + 7), notTerm a = true := by
          intro a ha
          exact hsegall a (List.mem_of_mem_drop ha)
        have hcap : (t.drop (k + 7)).takeWhile notTerm = (t.takeWhile notTerm).drop (k + 7) := by
          rw [hdropt]
          exact takeWhile_append_stop hcapall (by simp [notTerm, hterm])
        have hrest2 : (t.drop (k + 7)).drop ((t.takeWhile notTerm).drop (k + 7)).length = c :: rest := by
          rw [hdropt]
          exact List.drop_left _ _
        rw [hcap, hrest2, specScan_cons hcE, ih rest hlen]
        simp [List.filterMap_cons, segFirstError, hseg, segErrors]

/-- The scan equals the per-segment extraction. -/
theorem specScan_eq_segErrors (t : List Char) : specScan t = segErrors t :=
  specScan_eq_segErrors_aux t.length t (le_refl _)

/-- Concatenation of the images of a list-valued function, in order. -/
def concatMapList (f : List Char → List (List Char)) : List (List Char) → List (List Char)
  | [] => []
  | x :: xs => f x ++ concatMapList f xs

/-- The push-into-one-array fold is the concatenation of the per-log
results. -/
theorem foldl_append_eq (f : List Char → List (List Char)) :
    ∀ (logs : List (List Char)) (acc : List (List Char)),
    logs.foldl (fun a l => a ++ f l) acc = acc ++ concatMapList f logs := by
  intro logs
  induction logs with
  | nil =>
    intro acc
    simp [concatMapList]
  | cons l ls ih =>
    intro acc
    simp only [List.foldl_cons, concatMapList, ih, List.append_assoc]

/-- The extraction is the concatenation of the per-segment entries of the
logs. -/
theorem extractErrors_eq_segs (logs : List (List Char)) :
    extractErrors logs = concatMapList segErrors logs := by
  rw [extractErrors, foldl_append_eq execRun logs []]
  simp only [List.nil_append]
  induction logs with
  | nil => rfl
  | cons l ls ih =>
    simp only [concatMapList, ih, execRun_eq_specScan, specScan_eq_segErrors]

/-- C1 (counterexample): on the log line Error colon a Error colon b the
code extracts one entry, the remainder of the line after the FIRST match,
while the line has two match positions with two captures; the second
match position gets no entry of its own (it is merged into the first
capture), so the extracted list does not list every match occurrence
once. -/
theorem getErrorForTransaction_merges_occurrences :
    getErrorForTransaction (some ⟨some ⟨some ["Error: a Error: b".toList]⟩⟩)
        = ["a Error: b".toList]
      ∧ allOccCaptures ("Error: a Error: b".toList)
        = ["a Error: b".toList, "b".toList]
      ∧ getErrorForTransaction (some ⟨some ⟨some ["Error: a Error: b".toList]⟩⟩)
        ≠ concatMapList allOccCaptures ["Error: a Error: b".toList] := by
  refine ⟨by decide, by decide, by decide⟩

/-- C1 (amended): the extracted error list has exactly one entry per
line-terminator-separated segment of each log line that matches: the
remainder of that segment after its FIRST match (which may itself contain
further matches); matches after the first inside one segment contribute
no entry of their own, and entries appear in log and segment order,
none dropped or duplicated. -/
theorem getErrorForTransaction_segment_errors (logs : List (List Char)) :
    getErrorForTransaction (some ⟨some ⟨some logs⟩⟩) = concatMapList segErrors logs := by
  show extractErrors logs = concatMapList segErrors logs
  exact extractErrors_eq_segs logs

/-- C10: when the queried transaction record is null, has no meta, or has
no log messages, getErrorForTransaction returns the empty list. -/
theorem getErrorForTransaction_missing_data_empty (tx : Option ParsedTx)
    (h : tx = none ∨ (∃ p, tx = some p ∧ p.meta = none)
       ∨ (∃ p m, tx = some p ∧ p.meta = some m ∧ m.logMessages = none)) :
    getErrorForTransaction tx = [] := by
  rcases h with rfl | ⟨p, rfl, hp⟩ | ⟨p, m, rfl, hp, hm⟩
  · rfl
  · cases p
    cases hp
    rfl
  · cases p
    cases m
    cases hp
    cases hm
    rfl

/-- Witness for C10 at concrete inputs of all three missing shapes. -/
theorem getErrorForTransaction_missing_data_empty_witness :
    getErrorForTransaction none = []
      ∧ getErrorForTransaction (some ⟨none⟩) = []
      ∧ getErrorForTransaction (some ⟨some ⟨none⟩⟩) = [] :=
  ⟨getErrorForTransaction_missing_data_empty none (Or.inl rfl),
   getErrorForTransaction_missing_data_empty (some ⟨none⟩)
     (Or.inr (Or.inl ⟨⟨none⟩, rfl, rfl⟩)),
   getErrorForTransaction_missing_data_empty (some ⟨some ⟨none⟩⟩)
     (Or.inr (Or.inr ⟨⟨some ⟨none⟩⟩, ⟨none⟩, rfl, rfl, rfl⟩))⟩

/-! ## Transaction submission: sendTransaction

The effectful workflow is embedded as a pure function of its
collaborators. The RPC connection is a record of the responses it would
give (recent blockhash, transaction id per raw payload, confirmation
status, parsed transaction); the wallet exposes an optional public key
and a signing function; serialization is a collaborator function as well.
The function returns the thrown-or-returned outcome together with the
ordered trace of collaborator calls it performed.
-/

/-- An additional signer credential (web3 Account): only its public key
matters to the submission workflow. -/
structure SolAccount where
  publicKey : String
  deriving DecidableEq, Repr

/-- The assembled transaction: instructions in order of addition, the
attached recent blockhash, the signer public-key list set by setSigners
(fee payer first), and the keys whose signatures have been applied. -/
structure Transaction where
  instructions : List String
  recentBlockhash : Option String
  signerKeys : List String
  sigs : List String
  deriving DecidableEq, Repr

/-- transaction.add appends one instruction. -/
def Transaction.add (t : Transaction) (i : String) : Transaction :=
  { t with instructions := t.instructions ++ [i] }

/-- The freshly constructed new Transaction. -/
def emptyTransaction : Transaction := ⟨[], none, [], []⟩

/-- The wallet adapter: possibly absent public key, and the signing
capability. -/
structure WalletAdapter where
  publicKey : Option String
  signTransaction : Transaction → Transaction

/-- Responses of the connection and serialization collaborators during
one sendTransaction call. -/
structure SendEnv where
  blockhash : String
  sendRaw : String → String
  confirmErr : Option String
  parsedTx : Option ParsedTx
  serializeTx : Transaction → String

/-- One collaborator call, in the order the workflow performs them. -/
inductive SendEvent where
  | getRecentBlockhash : SendEvent
  | walletSign : Transaction → SendEvent
  | sendRawTransaction : String → SendEvent
  | confirmTransaction : String → SendEvent
  | confirmTransactionMax : String → SendEvent
  | getParsedConfirmedTransaction : String → SendEvent
  | notifyError : List (List Char) → SendEvent

/-- JSON.stringify of the confirmation status object (an object with the
single err field). -/
def stringifyStatus (err : String) : String := "\x7b\"err\":" ++ err ++ "\x7d"

/-- The two errors sendTransaction can throw of its own accord. -/
inductive SendError where
  | walletNotConnected : SendError
  | rawTransactionFailed (txid : String) (statusJson : String) : SendError

/-- The message of the thrown Error object. -/
def SendError.message : SendError → String
  | .walletNotConnected => "Wallet is not connected"
  | .rawTransactionFailed txid statusJson =>
    "Raw transaction " ++ txid ++ " failed (" ++ statusJson ++ ")"

/-- The getErrorForTransaction call performed on a failed confirmation:
its value is the extraction over the queried record, its trace the two
connection calls it awaits (confirmTransaction at commitment max, then
getParsedConfirmedTransaction). -/
def getErrorForTransactionRun (env : SendEnv) (txid : String) :
    List (List Char) × List SendEvent :=
  (getErrorForTransaction env.parsedTx,
   [SendEvent.confirmTransactionMax txid, SendEvent.getParsedConfirmedTransaction txid])

/-- Lines 159 through 169 of the source: build the transaction by adding
each instruction, attach the blockhash just fetched from the connection,
set the signers with the wallet owner (fee payer) first followed by the
additional signers in their given order, and apply the additional signer
signatures when there are any. -/
def assembleTransaction (env : SendEnv) (pk : String) (instructions : List String)
    (signers : List SolAccount) : Transaction :=
  let t1 := instructions.foldl Transaction.add emptyTransaction
  let t2 := { t1 with recentBlockhash := some env.blockhash }
  let t3 := { t2 with signerKeys := pk :: signers.map SolAccount.publicKey }
  if signers.length > 0
    then { t3 with sigs := t3.sigs ++ signers.map SolAccount.publicKey }
    else t3

/-- sendTransaction: throws when the wallet or its public key is absent;
otherwise assembles the transaction, has the wallet sign it, serializes
and submits it, and, when awaitConfirmation is set, checks the
confirmation status, on error notifying with the extracted log errors and
throwing an error naming the transaction id and the stringified status.
Returns the outcome and the trace of collaborator calls. -/
def sendTransaction (env : SendEnv) (wallet : Option WalletAdapter)
    (instructions : List String) (signers : List SolAccount)
    (awaitConfirmation : Bool) : Except SendError String × List SendEvent :=
  match wallet with
  | none => (Except.error SendError.walletNotConnected, [])
  | some w =>
    match w.publicKey with
    | none => (Except.error SendError.walletNotConnected, [])
    | some pk =>
      let t4 := assembleTransaction env pk instructions signers
      let t5 := w.signTransaction t4
      let raw := env.serializeTx t5
      let txid := env.sendRaw raw
      let trace0 := [SendEvent.getRecentBlockhash, SendEvent.walletSign t4,
        SendEvent.sendRawTransaction raw]
      if awaitConfirmation then
        match env.confirmErr with
        | some errVal =>
          let res := getErrorForTransactionRun env txid
          (Except.error (SendError.rawTransactionFailed txid (stringifyStatus errVal)),
           trace0 ++ [SendEvent.confirmTransaction txid] ++ res.2
             ++ [SendEvent.notifyError res.1])
        | none => (Except.ok txid, trace0 ++ [SendEvent.confirmTransaction txid])
      else (Except.ok txid, trace0)

/-- C2: when the wallet is absent or its public key is absent,
sendTransaction throws the wallet-not-connected error with an empty
collaborator trace: no recent-blockhash fetch, no submission, no
confirmation query happened. -/
theorem sendTransaction_no_publicKey_no_network
    (env : SendEnv) (wallet : Option WalletAdapter) (instructions : List String)
    (signers : List SolAccount) (awaitConfirmation : Bool)
    (h : Option.bind wallet WalletAdapter.publicKey = none) :
    sendTransaction env wallet instructions signers awaitConfirmation
      = (Except.error SendError.walletNotConnected, []) := by
  cases wallet with
  | none => rfl
  | some w =>
    have hpk : w.publicKey = none := h
    simp [sendTransaction, hpk]

/-- Concrete connection responses used by the witnesses. -/
def envOk : SendEnv :=
  { blockhash := "bh1", sendRaw := fun raw => "tx:" ++ raw, confirmErr := none,
    parsedTx := none, serializeTx := fun t => String.intercalate "," t.instructions }

/-- Concrete connection responses whose confirmation reports an error. -/
def envErr : SendEnv :=
  { envOk with confirmErr := some "\"oops\"" }

/-- A wallet with no public key. -/
def walletNoKey : WalletAdapter := ⟨none, fun t => t⟩

/-- A connected wallet whose signing is the identity. -/
def walletOk : WalletAdapter := ⟨some "feePayer", fun t => t⟩

/-- Witness for C2 at a concrete call. -/
theorem sendTransaction_no_publicKey_no_network_witness :
    sendTransaction envOk (some walletNoKey) ["i1"] [] true
      = (Except.error SendError.walletNotConnected, []) :=
  sendTransaction_no_publicKey_no_network envOk (some walletNoKey) ["i1"] [] true rfl

/-- C3: whenever sendTransaction completes without throwing, the returned
value is exactly the transaction id the connection produced for the
serialized payload that was submitted, whether or not confirmation was
awaited. -/
theorem sendTransaction_returns_submitted_txid
    (env : SendEnv) (wallet : Option WalletAdapter) (instructions : List String)
    (signers : List SolAccount) (awaitConfirmation : Bool) (t : String)
    (h : (sendTransaction env wallet instructions signers awaitConfirmation).1
      = Except.ok t) :
    ∃ raw, SendEvent.sendRawTransaction raw
        ∈ (sendTransaction env wallet instructions signers awaitConfirmation).2
      ∧ t = env.sendRaw raw := by
  cases wallet with
  | none => simp [sendTransaction] at h
  | some w =>
    cases hpk : w.publicKey with
    | none => simp [sendTransaction, hpk] at h
    | some pk =>
      refine ⟨env.serializeTx (w.signTransaction (assembleTransaction env pk instructions signers)), ?_, ?_⟩
      · cases hac : awaitConfirmation with
        | false => simp [sendTransaction, hpk]
        | true =>
          cases hce : env.confirmErr with
          | none => simp [sendTransaction, hpk, hce]
          | some e => simp [sendTransaction, hpk, hce]
      · cases hac : awaitConfirmation with
        | false =>
          rw [hac] at h
          simp [sendTransaction, hpk] at h
          exact h.symm
        | true =>
          rw [hac] at h
          cases hce : env.confirmErr with
          | none =>
            simp [sendTransaction, hpk, hce] at h
            exact h.symm
          | some e => simp [sendTransaction, hpk, hce] at h

/-- Witness for C3 at a concrete successful call. -/
theorem sendTransaction_returns_submitted_txid_witness :
    ∃ raw, SendEvent.sendRawTransaction raw
        ∈ (sendTransaction envOk (some walletOk) ["i1"] [] true).2
      ∧ "tx:i1" = envOk.sendRaw raw :=
  sendTransaction_returns_submitted_txid envOk (some walletOk) ["i1"] [] true "tx:i1" rfl

/-- The failure message carries the transaction id and the stringified
status as substrings. -/
theorem rawTransactionFailed_message_parts (txid st : String) :
    txid.toList <:+: (SendError.message (SendError.rawTransactionFailed txid st)).toList
      ∧ st.toList <:+: (SendError.message (SendError.rawTransactionFailed txid st)).toList := by
  constructor
  · refine ⟨"Raw transaction ".toList, (" failed (" ++ st ++ ")").toList, ?_⟩
    show "Raw transaction ".toList ++ txid.toList ++ (" failed (" ++ st ++ ")").toList
      = ("Raw transaction " ++ txid ++ " failed (" ++ st ++ ")").toList
    simp
  · refine ⟨("Raw transaction " ++ txid ++ " failed (").toList, ")".toList, ?_⟩
    show ("Raw transaction " ++ txid ++ " failed (").toList ++ st.toList ++ ")".toList
      = ("Raw transaction " ++ txid ++ " failed (" ++ st ++ ")").toList
    simp

/-- C4: sendTransaction fails of its own accord in exactly two ways:
the synchronous wallet-not-connected throw (absent public key, empty
collaborator trace), or, with awaitConfirmation set and the confirmation
status reporting an error, a thrown error whose message contains both the
transaction id and the stringified raw status. -/
theorem sendTransaction_failure_modes
    (env : SendEnv) (wallet : Option WalletAdapter) (instructions : List String)
    (signers : List SolAccount) (awaitConfirmation : Bool) (e : SendError)
    (h : (sendTransaction env wallet instructions signers awaitConfirmation).1
      = Except.error e) :
    (e = SendError.walletNotConnected
        ∧ Option.bind wallet WalletAdapter.publicKey = none
        ∧ (sendTransaction env wallet instructions signers awaitConfirmation).2 = [])
      ∨ (∃ txid errVal, awaitConfirmation = true
          ∧ env.confirmErr = some errVal
          ∧ e = SendError.rawTransactionFailed txid (stringifyStatus errVal)
          ∧ txid.toList <:+: (SendError.message e).toList
          ∧ (stringifyStatus errVal).toList <:+: (SendError.message e).toList) := by
  cases wallet with
  | none =>
    left
    simp [sendTransaction] at h
    exact ⟨h.symm, rfl, rfl⟩
  | some w =>
    cases hpk : w.publicKey with
    | none =>
      left
      simp [sendTransaction, hpk] at h
      refine ⟨h.symm, hpk, ?_⟩
      simp [sendTransaction, hpk]
    | some pk =>
      right
      cases hac : awaitConfirmation with
      | false =>
        rw [hac] at h
        simp [sendTransaction, hpk] at h
      | true =>
        rw [hac] at h
        cases hce : env.confirmErr with
        | none => simp [sendTransaction, hpk, hce] at h
        | some errVal =>
          simp [sendTransaction, hpk, hce] at h
          refine ⟨env.sendRaw (env.serializeTx (w.signTransaction
            (assembleTransaction env pk instructions signers))), errVal, rfl, rfl, h.symm, ?_⟩
          rw [← h]
          exact rawTransactionFailed_message_parts _ _

/-- Witness for C4 at a concrete failing confirmation. -/
theorem sendTransaction_failure_modes_witness :
    (SendError.rawTransactionFailed "tx:i1" (stringifyStatus "\"oops\"")
          = SendError.walletNotConnected
        ∧ Option.bind (some walletOk) WalletAdapter.publicKey = none
        ∧ (sendTransaction envErr (some walletOk) ["i1"] [] true).2 = [])
      ∨ (∃ txid errVal, true = true
          ∧ envErr.confirmErr = some errVal
          ∧ SendError.rawTransactionFailed "tx:i1" (stringifyStatus "\"oops\"")
            = SendError.rawTransactionFailed txid (stringifyStatus errVal)
          ∧ txid.toList <:+: (SendError.message (SendError.rawTransactionFailed "tx:i1"
              (stringifyStatus "\"oops\""))).toList
          ∧ (stringifyStatus errVal).toList
            <:+: (SendError.message (SendError.rawTransactionFailed "tx:i1"
              (stringifyStatus "\"oops\""))).toList) :=
  sendTransaction_failure_modes envErr (some walletOk) ["i1"] [] true
    (SendError.rawTransactionFailed "tx:i1" (stringifyStatus "\"oops\"")) rfl

/-- C6: the assembled transaction lists the wallet public key (fee payer)
first, then the additional signer keys in their given order; its attached
recent-block reference is the one just fetched from the connection, and
in the collaborator trace the recent-blockhash fetch happens right before
the wallet is asked to sign that assembled transaction. -/
theorem sendTransaction_signer_order_fresh_blockhash
    (env : SendEnv) (w : WalletAdapter) (pk : String) (instructions : List String)
    (signers : List SolAccount) (awaitConfirmation : Bool)
    (hpk : w.publicKey = some pk) :
    (assembleTransaction env pk instructions signers).signerKeys
        = pk :: signers.map SolAccount.publicKey
      ∧ (assembleTransaction env pk instructions signers).recentBlockhash
        = some env.blockhash
      ∧ ∃ rest, (sendTransaction env (some w) instructions signers awaitConfirmation).2
          = SendEvent.getRecentBlockhash
            :: SendEvent.walletSign (assembleTransaction env pk instructions signers)
            :: rest := by
  refine ⟨?_, ?_, ?_⟩
  · simp only [assembleTransaction]
    split <;> rfl
  · simp only [assembleTransaction]
    split <;> rfl
  · cases hac : awaitConfirmation with
    | false =>
      exact ⟨[SendEvent.sendRawTransaction (env.serializeTx (w.signTransaction
          (assembleTransaction env pk instructions signers)))],
        by simp [sendTransaction, hpk]⟩
    | true =>
      cases hce : env.confirmErr with
      | none =>
        exact ⟨[SendEvent.sendRawTransaction (env.serializeTx (w.signTransaction
            (assembleTransaction env pk instructions signers))),
          SendEvent.confirmTransaction (env.sendRaw (env.serializeTx (w.signTransaction
            (assembleTransaction env pk instructions signers))))],
          by simp [sendTransaction, hpk, hce]⟩
      | some errVal =>
        exact ⟨[SendEvent.sendRawTransaction (env.serializeTx (w.signTransaction
            (assembleTransaction env pk instructions signers))),
          SendEvent.confirmTransaction (env.sendRaw (env.serializeTx (w.signTransaction
            (assembleTransaction env pk instructions signers)))),
          SendEvent.confirmTransactionMax (env.sendRaw (env.serializeTx (w.signTransaction
            (assembleTransaction env pk instructions signers)))),
          SendEvent.getParsedConfirmedTransaction (env.sendRaw (env.serializeTx (w.signTransaction
            (assembleTransaction env pk instructions signers)))),
          SendEvent.notifyError (getErrorForTransaction env.parsedTx)],
          by simp [sendTransaction, getErrorForTransactionRun, hpk, hce]⟩

/-- Witness for C6 at a concrete call with two additional signers. -/
theorem sendTransaction_signer_order_fresh_blockhash_witness :
    (assembleTransaction envOk "feePayer" ["i1"] [⟨"s1"⟩, ⟨"s2"⟩]).signerKeys
        = "feePayer" :: [SolAccount.mk "s1", SolAccount.mk "s2"].map SolAccount.publicKey
      ∧ (assembleTransaction envOk "feePayer" ["i1"] [⟨"s1"⟩, ⟨"s2"⟩]).recentBlockhash
        = some envOk.blockhash
      ∧ ∃ rest, (sendTransaction envOk (some walletOk) ["i1"] [⟨"s1"⟩, ⟨"s2"⟩] true).2
          = SendEvent.getRecentBlockhash
            :: SendEvent.walletSign (assembleTransaction envOk "feePayer" ["i1"] [⟨"s1"⟩, ⟨"s2"⟩])
            :: rest :=
  sendTransaction_signer_order_fresh_blockhash envOk walletOk "feePayer" ["i1"]
    [⟨"s1"⟩, ⟨"s2"⟩] true rfl

/-! ## The connection-configuration provider

The provider component is modelled as a state machine. A connection
handle is identified by an allocation counter (two new Connection calls
yield two distinct handles); the keep-alive no-op subscriptions the four
effect hooks maintain are recorded with the handle they were opened on.
Mounting establishes the four subscriptions; changing the endpoint
recreates both handles (the two useMemo computations depend on the
endpoint value), then runs the effect cleanups (removing the listeners
opened on the replaced handles) followed by the effects (opening one
account-change and one slot-change listener per new handle), which is the
commit order React uses for effect hooks whose dependency changed. -/

/-- The kind of keep-alive listener. -/
inductive SubKind where
  | accountChange : SubKind
  | slotChange : SubKind
  deriving DecidableEq, Repr

/-- A connection handle: the endpoint it was created for and its
allocation identity. -/
structure ConnHandle where
  endpointUrl : String
  id : Nat
  deriving DecidableEq, Repr

/-- One live keep-alive subscription: the handle it was opened on, its
kind, and its listener id. -/
structure Subscription where
  connId : Nat
  kind : SubKind
  subId : Nat
  deriving DecidableEq, Repr

/-- The provider state: persisted endpoint, both handles, the live
subscriptions, and the allocation counters. -/
structure ProviderState where
  endpoint : String
  connection : ConnHandle
  sendConnection : ConnHandle
  subs : List Subscription
  nextConnId : Nat
  nextSubId : Nat
  deriving DecidableEq, Repr

/-- Open one keep-alive listener on a handle (an onAccountChange or
onSlotChange call inside an effect). -/
def addSub (s : ProviderState) (cid : Nat) (k : SubKind) : ProviderState :=
  { s with subs := s.subs ++ [⟨cid, k, s.nextSubId⟩], nextSubId := s.nextSubId + 1 }

/-- Close the listener an effect opened on a handle (the cleanup calling
removeAccountChangeListener or removeSlotChangeListener with the id it
closed over). -/
def removeSub (s : ProviderState) (cid : Nat) (k : SubKind) : ProviderState :=
  { s with subs := s.subs.filter (fun sub => !(sub.connId == cid && sub.kind == k)) }

/-- Initial mount with a given endpoint: two fresh handles, then the four
effects run, opening one account-change and one slot-change listener per
handle. -/
def mountProvider (e : String) : ProviderState :=
  let s0 : ProviderState := ⟨e, ⟨e, 0⟩, ⟨e, 1⟩, [], 2, 0⟩
  addSub (addSub (addSub (addSub s0 0 SubKind.accountChange) 0 SubKind.slotChange)
    1 SubKind.accountChange) 1 SubKind.slotChange

/-- The setEndpoint action: with an unchanged value nothing re-renders;
otherwise both useMemo values are recomputed (two fresh handles), the
four cleanups close the listeners of the replaced handles, and the four
effects open the listeners of the new handles. -/
def setEndpointP (s : ProviderState) (e : String) : ProviderState :=
  if e = s.endpoint then s
  else
    let c1 : ConnHandle := ⟨e, s.nextConnId⟩
    let c2 : ConnHandle := ⟨e, s.nextConnId + 1⟩
    let s1 := { s with
      endpoint := e
      connection := c1
      sendConnection := c2
      nextConnId := s.nextConnId + 2 }
    let s2 := removeSub (removeSub (removeSub (removeSub s1
      s.connection.id SubKind.accountChange) s.connection.id SubKind.slotChange)
      s.sendConnection.id SubKind.accountChange) s.sendConnection.id SubKind.slotChange
    addSub (addSub (addSub (addSub s2 c1.id SubKind.accountChange) c1.id SubKind.slotChange)
      c2.id SubKind.accountChange) c2.id SubKind.slotChange

/-- Number of live subscriptions of one kind on one handle. -/
def countSubs (s : ProviderState) (cid : Nat) (k : SubKind) : Nat :=
  (s.subs.filter (fun sub => sub.connId == cid && sub.kind == k)).length

/-- Provider invariant: the two handles are distinct and below the
allocation counter, every live subscription belongs to one of the two
handles, and each handle holds exactly one account-change and one
slot-change keep-alive subscription. -/
def ProviderInv (s : ProviderState) : Prop :=
  s.connection.id < s.nextConnId ∧ s.sendConnection.id < s.nextConnId
    ∧ s.connection.id ≠ s.sendConnection.id
    ∧ (∀ sub ∈ s.subs, sub.connId = s.connection.id ∨ sub.connId = s.sendConnection.id)
    ∧ countSubs s s.connection.id SubKind.accountChange = 1
    ∧ countSubs s s.connection.id SubKind.slotChange = 1
    ∧ countSubs s s.sendConnection.id SubKind.accountChange = 1
    ∧ countSubs s s.sendConnection.id SubKind.slotChange = 1

instance (s : ProviderState) : Decidable (ProviderInv s) := by
  unfold ProviderInv
  infer_instance

/-- After an endpoint switch, the four cleanups leave no subscription:
every live subscription belonged to one of the two replaced handles and
is of one of the two kinds, so one of the four cleanups removes it. -/
theorem cleanup_removes_all (s : ProviderState)
    (hsub : ∀ sub ∈ s.subs,
      sub.connId = s.connection.id ∨ sub.connId = s.sendConnection.id) :
    ((((s.subs.filter (fun sub =>
        !(sub.connId == s.connection.id && sub.kind == SubKind.accountChange))).filter
      (fun sub =>
        !(sub.connId == s.connection.id && sub.kind == SubKind.slotChange))).filter
      (fun sub =>
        !(sub.connId == s.sendConnection.id && sub.kind == SubKind.accountChange))).filter
      (fun sub =>
        !(sub.connId == s.sendConnection.id && sub.kind == SubKind.slotChange))) = [] := by
  apply List.eq_nil_iff_forall_not_mem.mpr
  intro sub hm
  have h1 := List.mem_filter.mp hm
  have h2 := List.mem_filter.mp h1.1
  have h3 := List.mem_filter.mp h2.1
  have h4 := List.mem_filter.mp h3.1
  rcases hsub sub h4.1 with hc | hc <;> cases hk : sub.kind <;> simp_all

/-- Explicit form of an endpoint switch: both handles are rebuilt with
fresh identities on the new endpoint and the keep-alive subscriptions are
exactly one account-change and one slot-change listener per new handle. -/
theorem setEndpointP_eq (s : ProviderState) (e : String) (hne : e ≠ s.endpoint)
    (hsub : ∀ sub ∈ s.subs,
      sub.connId = s.connection.id ∨ sub.connId = s.sendConnection.id) :
    setEndpointP s e = ⟨e, ⟨e, s.nextConnId⟩, ⟨e, s.nextConnId + 1⟩,
      [⟨s.nextConnId, SubKind.accountChange, s.nextSubId⟩,
        ⟨s.nextConnId, SubKind.slotChange, s.nextSubId + 1⟩,
        ⟨s.nextConnId + 1, SubKind.accountChange, s.nextSubId + 2⟩,
        ⟨s.nextConnId + 1, SubKind.slotChange, s.nextSubId + 3⟩],
      s.nextConnId + 2, s.nextSubId + 4⟩ := by
  have hnil := cleanup_removes_all s hsub
  unfold setEndpointP addSub removeSub
  rw [if_neg hne]
  simp [hnil]
  intro a ha h1 h2 h3
  rcases hsub a ha with hc | hc <;> cases hk : a.kind <;> simp_all

/-- C8: switching the endpoint reconstructs both connection handles (two
fresh identities, both on the new endpoint), establishes exactly one
no-op account-change and one no-op slot-change subscription per new
handle, cancels every subscription of the replaced handles, and
preserves the provider invariant. -/
theorem setEndpoint_recreates_handles_and_subs
    (s : ProviderState) (e : String) (hinv : ProviderInv s) (hne : e ≠ s.endpoint) :
    (setEndpointP s e).connection.id ≠ s.connection.id
      ∧ (setEndpointP s e).connection.id ≠ s.sendConnection.id
      ∧ (setEndpointP s e).sendConnection.id ≠ s.connection.id
      ∧ (setEndpointP s e).sendConnection.id ≠ s.sendConnection.id
      ∧ (setEndpointP s e).connection.endpointUrl = e
      ∧ (setEndpointP s e).sendConnection.endpointUrl = e
      ∧ countSubs (setEndpointP s e) (setEndpointP s e).connection.id
          SubKind.accountChange = 1
      ∧ countSubs (setEndpointP s e) (setEndpointP s e).connection.id
          SubKind.slotChange = 1
      ∧ countSubs (setEndpointP s e) (setEndpointP s e).sendConnection.id
          SubKind.accountChange = 1
      ∧ countSubs (setEndpointP s e) (setEndpointP s e).sendConnection.id
          SubKind.slotChange = 1
      ∧ (∀ sub ∈ (setEndpointP s e).subs,
          sub.connId ≠ s.connection.id ∧ sub.connId ≠ s.sendConnection.id)
      ∧ ProviderInv (setEndpointP s e) := by
  obtain ⟨h1, h2, h3, hsub, hc1, hc2, hc3, hc4⟩ := hinv
  rw [setEndpointP_eq s e hne hsub]
  have eA : ((s.nextConnId + 1 : Nat) == s.nextConnId) = false := by
    rw [beq_eq_false_iff_ne]
    omega
  have eB : ((s.nextConnId : Nat) == s.nextConnId + 1) = false := by
    rw [beq_eq_false_iff_ne]
    omega
  have k1 : (SubKind.accountChange == SubKind.slotChange) = false := by decide
  have k2 : (SubKind.slotChange == SubKind.accountChange) = false := by decide
  refine ⟨by first | (simp; omega) | simp | omega, by first | (simp; omega) | simp | omega,
    by first | (simp; omega) | simp | omega, by first | (simp; omega) | simp | omega, rfl, rfl,
    ?_, ?_, ?_, ?_, ?_, ?_⟩
  · simp [countSubs, List.filter, eA, eB, k1, k2]
  · simp [countSubs, List.filter, eA, eB, k1, k2]
  · simp [countSubs, List.filter, eA, eB, k1, k2]
  · simp [countSubs, List.filter, eA, eB, k1, k2]
  · intro sub hm
    simp at hm
    rcases hm with rfl | rfl | rfl | rfl <;> constructor <;> simp <;> omega
  · refine ⟨by first | (simp; omega) | simp | omega, by first | (simp; omega) | simp | omega,
      by first | (simp; omega) | simp | omega, ?_,
      by simp [countSubs, List.filter, eA, eB, k1, k2],
      by simp [countSubs, List.filter, eA, eB, k1, k2],
      by simp [countSubs, List.filter, eA, eB, k1, k2],
      by simp [countSubs, List.filter, eA, eB, k1, k2]⟩
    intro sub hm
    simp at hm
    rcases hm with rfl | rfl | rfl | rfl <;> simp

/-- Witness for C8: a mounted provider switched to another endpoint URL. -/
theorem setEndpoint_recreates_handles_and_subs_witness :
    (setEndpointP (mountProvider "https://api.devnet.solana.com") "wss://other").connection.id
        ≠ (mountProvider "https://api.devnet.solana.com").connection.id
      ∧ (setEndpointP (mountProvider "https://api.devnet.solana.com") "wss://other").connection.id
        ≠ (mountProvider "https://api.devnet.solana.com").sendConnection.id
      ∧ (setEndpointP (mountProvider "https://api.devnet.solana.com") "wss://other").sendConnection.id
        ≠ (mountProvider "https://api.devnet.solana.com").connection.id
      ∧ (setEndpointP (mountProvider "https://api.devnet.solana.com") "wss://other").sendConnection.id
        ≠ (mountProvider "https://api.devnet.solana.com").sendConnection.id
      ∧ (setEndpointP (mountProvider "https://api.devnet.solana.com") "wss://other").connection.endpointUrl
        = "wss://other"
      ∧ (setEndpointP (mountProvider "https://api.devnet.solana.com") "wss://other").sendConnection.endpointUrl
        = "wss://other"
      ∧ countSubs (setEndpointP (mountProvider "https://api.devnet.solana.com") "wss://other")
          (setEndpointP (mountProvider "https://api.devnet.solana.com") "wss://other").connection.id
          SubKind.accountChange = 1
      ∧ countSubs (setEndpointP (mountProvider "https://api.devnet.solana.com") "wss://other")
          (setEndpointP (mountProvider "https://api.devnet.solana.com") "wss://other").connection.id
          SubKind.slotChange = 1
      ∧ countSubs (setEndpointP (mountProvider "https://api.devnet.solana.com") "wss://other")
          (setEndpointP (mountProvider "https://api.devnet.solana.com") "wss://other").sendConnection.id
          SubKind.accountChange = 1
      ∧ countSubs (setEndpointP (mountProvider "https://api.devnet.solana.com") "wss://other")
          (setEndpointP (mountProvider "https://api.devnet.solana.com") "wss://other").sendConnection.id
          SubKind.slotChange = 1
      ∧ (∀ sub ∈ (setEndpointP (mountProvider "https://api.devnet.solana.com") "wss://other").subs,
          sub.connId ≠ (mountProvider "https://api.devnet.solana.com").connection.id
            ∧ sub.connId ≠ (mountProvider "https://api.devnet.solana.com").sendConnection.id)
      ∧ ProviderInv (setEndpointP (mountProvider "https://api.devnet.solana.com") "wss://other") :=
  setEndpoint_recreates_handles_and_subs (mountProvider "https://api.devnet.solana.com")
    "wss://other" (by decide) (by decide)

/-! ## Endpoint catalogue and the exposed network identifier -/

/-- One endpoint descriptor of the ENDPOINTS record: cluster name, URL,
chain id (the spl-token-registry ENV values 101, 102, 103). -/
structure EndpointInfo where
  name : String
  endpointUrl : String
  chainID : Nat
  deriving DecidableEq, Repr

/-- clusterApiUrl of the web3 library (an external collaborator), modelled
by the URLs it returns for the clusters this module uses. -/
def clusterApiUrl : String → String
  | "devnet" => "https://api.devnet.solana.com"
  | "testnet" => "https://api.testnet.solana.com"
  | "mainnet-beta" => "https://api.mainnet-beta.solana.com"
  | _ => ""

/-- The ENDPOINTS record: keyed by the three cluster names; any other
index reads as undefined. -/
def ENDPOINTS : String → Option EndpointInfo
  | "mainnet-beta" => some ⟨"mainnet-beta", "https://solana-api.projectserum.com/", 101⟩
  | "testnet" => some ⟨"testnet", clusterApiUrl "testnet", 102⟩
  | "devnet" => some ⟨"devnet", clusterApiUrl "devnet", 103⟩
  | _ => none

/-- The default cluster: the environment variable when set and non-empty
(a falsy empty string falls through), else devnet. -/
def DEFAULT_CLUSTER (envVar : Option String) : String :=
  match envVar with
  | none => "devnet"
  | some "" => "devnet"
  | some s => s

/-- Line 66 of the source: the chain looked up by indexing ENDPOINTS with
the stored endpoint value, falling back to the default endpoint; none
models the undefined default endpoint of a bad environment variable. -/
def chainFor (envVar : Option String) (endpoint : String) : Option EndpointInfo :=
  match ENDPOINTS endpoint with
  | some info => some info
  | none => ENDPOINTS (DEFAULT_CLUSTER envVar)

/-- The network identifier the provider exposes: the name of the chain
found by the lookup. -/
def networkExposed (envVar : Option String) (endpoint : String) : Option String :=
  (chainFor envVar endpoint).map EndpointInfo.name

/-- C9: the endpoint-to-network lookup indexes the cluster-name-keyed
ENDPOINTS record with the endpoint URL, so for every stored endpoint
value other than the three cluster names the exposed network identifier
is the default cluster name; in particular every endpoint URL of the
catalogue itself (none of which is a cluster name) leaves the exposed
network at the default. -/
theorem network_defaults_on_url_endpoint :
    (∀ (envVar : Option String) (dflt : EndpointInfo) (url : String),
        ENDPOINTS (DEFAULT_CLUSTER envVar) = some dflt →
        url ≠ "mainnet-beta" → url ≠ "testnet" → url ≠ "devnet" →
        networkExposed envVar url = some dflt.name)
      ∧ (∀ (envVar : Option String) (dflt : EndpointInfo) (c : String) (info : EndpointInfo),
          ENDPOINTS (DEFAULT_CLUSTER envVar) = some dflt →
          ENDPOINTS c = some info →
          networkExposed envVar info.endpointUrl = some dflt.name) := by
  have hnone : ∀ url : String, url ≠ "mainnet-beta" → url ≠ "testnet" → url ≠ "devnet" →
      ENDPOINTS url = none := by
    intro url h1 h2 h3
    unfold ENDPOINTS
    split
    · exact absurd rfl h1
    · exact absurd rfl h2
    · exact absurd rfl h3
    · rfl
  constructor
  · intro envVar dflt url hd h1 h2 h3
    unfold networkExposed chainFor
    rw [hnone url h1 h2 h3, hd]
    rfl
  · intro envVar dflt c info hd hc
    have hcases : info.endpointUrl = "https://solana-api.projectserum.com/"
        ∨ info.endpointUrl = "https://api.testnet.solana.com"
        ∨ info.endpointUrl = "https://api.devnet.solana.com" := by
      revert hc
      unfold ENDPOINTS
      split <;> intro hc
      · cases hc
        left
        rfl
      · cases hc
        right
        left
        rfl
      · cases hc
        right
        right
        rfl
      · cases hc
    rcases hcases with hu | hu | hu <;>
      · rw [hu]
        unfold networkExposed chainFor
        rw [hnone _ (by decide) (by decide) (by decide), hd]
        rfl

/-- Witness for C9: with no environment variable the default is devnet,
and storing the mainnet URL exposes devnet as the network. -/
theorem network_defaults_on_url_endpoint_witness :
    networkExposed none "https://solana-api.projectserum.com/" = some "devnet"
      ∧ networkExposed none "https://api.devnet.solana.com" = some "devnet" :=
  ⟨network_defaults_on_url_endpoint.1 none ⟨"devnet", clusterApiUrl "devnet", 103⟩
      "https://solana-api.projectserum.com/" rfl (by decide) (by decide) (by decide),
   network_defaults_on_url_endpoint.1 none ⟨"devnet", clusterApiUrl "devnet", 103⟩
      "https://api.devnet.solana.com" rfl (by decide) (by decide) (by decide)⟩
